import Mathlib

/-!
Shallow embedding of the `cmds` package (cmds.go), a hierarchical
command-line parser.  Go error values are modelled by an explicit wrap
tree, the stdlib `flag` package's `Parse` loop by a small faithful
model, and process-terminating side effects (`os.Exit`, `panic`) by
explicit outcome constructors.
-/

/-- Go error values as used by the package: the three sentinel errors
declared in cmds.go (`Err`, `ErrCmd`, `ErrFlag`), plain message errors
built with `errors.New` or `fmt.Errorf` without `%w` verbs, and the
two-way wrap built with `fmt.Errorf("%w: %w", outer, inner)`. -/
inductive GoError where
  | errMark
  | errCmd
  | errFlag
  | msg (s : String)
  | wrap2 (outer inner : GoError)
  deriving DecidableEq, Repr

/-- Model of Go `errors.Is`: the target is compared with equality at
every node reachable through unwrapping; an error made by
`fmt.Errorf("%w: %w", a, b)` unwraps to both `a` and `b`. -/
def errorIs : GoError → GoError → Bool
  | .wrap2 a b, t => (GoError.wrap2 a b == t) || errorIs a t || errorIs b t
  | e, t => e == t

/-- An error value that does not contain any of the three sentinel
errors of the package anywhere in its wrap tree. -/
def markerFree : GoError → Bool
  | .msg _ => true
  | .wrap2 a b => markerFree a && markerFree b
  | _ => false

/-- Error-handling modes of the stdlib `flag` package
(`flag.ContinueOnError`, `flag.ExitOnError`, `flag.PanicOnError`). -/
inductive FlagErrorHandling where
  | continueOnError
  | exitOnError
  | panicOnError
  deriving DecidableEq, Repr

/-- Model of a stdlib `flag.FlagSet`: its name, its own error-handling
mode, and the defined flags as (flag name, is-boolean) pairs.  Bound
variable storage and usage output are not observed by any property
stated below and are not modelled; non-boolean flags behave like
string flags (their `Set` never fails). -/
structure FlagSet where
  name : String
  errorHandling : FlagErrorHandling
  defs : List (String × Bool)
  deriving DecidableEq, Repr

/-- Raw failures of the flag-parsing loop: `flag.ErrHelp` for an
undefined `-help`/`-h` flag, and formatted failures for everything
else. -/
inductive FlagRawErr where
  | help
  | fail (m : String)
  deriving DecidableEq, Repr

/-- Go `strconv.ParseBool` accepts exactly these strings. -/
def boolStrings : List String :=
  ["1", "t", "T", "TRUE", "true", "True", "0", "f", "F", "FALSE", "false", "False"]

/-- Split a flag body at the first '=' character, as the flag package
does when scanning `name=value` (the scan starts at index 1; callers
guarantee the head character is not '='). -/
def splitEq : List Char → List Char × Option (List Char)
  | [] => ([], none)
  | '=' :: r => ([], some r)
  | c :: r => ((splitEq r).1.cons c, (splitEq r).2)

/-- Look up a defined flag by name, returning whether it is boolean. -/
def lookupFlag (defs : List (String × Bool)) (n : String) : Option Bool :=
  (defs.find? (fun d => d.1 == n)).map (fun d => d.2)

/-- Model of the loop of stdlib `flag.FlagSet.Parse` / `parseOne`:
stop at the first token that is not flag syntax (length < 2 or not
starting with '-'), consume a bare "--" and stop, reject bad syntax,
reject undefined flags (with `flag.ErrHelp` for `-help`/`-h`), accept
boolean flags with an optional `=value` whose value must be a
`strconv.ParseBool` string, and require a value (inline or as the next
argument) for non-boolean flags. -/
def flagParseRaw (fs : FlagSet) : List String → Except FlagRawErr (List String)
  | [] => .ok []
  | s :: rest =>
    match s.data with
    | '-' :: c1 :: cs =>
      if c1 = '-' ∧ cs = [] then .ok rest
      else
        match (if c1 = '-' then cs else c1 :: cs) with
        | [] => .error (.fail ("bad flag syntax: " ++ s))
        | c0 :: nrest =>
          if c0 = '-' ∨ c0 = '=' then .error (.fail ("bad flag syntax: " ++ s))
          else
            match splitEq (c0 :: nrest) with
            | (nChars, vOpt) =>
              match lookupFlag fs.defs (String.mk nChars) with
              | none =>
                if String.mk nChars = "help" ∨ String.mk nChars = "h" then .error .help
                else .error (.fail ("flag provided but not defined: -" ++ String.mk nChars))
              | some true =>
                match vOpt with
                | some v =>
                  if boolStrings.contains (String.mk v) then flagParseRaw fs rest
                  else .error (.fail ("invalid boolean value \"" ++ String.mk v ++
                    "\" for -" ++ String.mk nChars))
                | none => flagParseRaw fs rest
              | some false =>
                match vOpt with
                | some _ => flagParseRaw fs rest
                | none =>
                  match rest with
                  | _ :: rest2 => flagParseRaw fs rest2
                  | [] => .error (.fail ("flag needs an argument: -" ++ String.mk nChars))
    | _ => .ok (s :: rest)

/-- What a call to `flag.FlagSet.Parse` does to the process: return the
positional remainder, return an error (ContinueOnError), terminate the
process (ExitOnError), or panic (PanicOnError). -/
inductive FlagOutcome where
  | ok (rest : List String)
  | errRet (e : GoError)
  | exited (code : Nat)
  | panicked (e : GoError)
  deriving DecidableEq, Repr

/-- The `flag.ErrHelp` sentinel error. -/
def errHelpMsg : GoError := .msg "flag: help requested"

/-- Model of `flag.FlagSet.Parse` including the set's own
error-handling mode: ContinueOnError returns the error, ExitOnError
exits with status 2 (0 for help), PanicOnError panics. -/
def FlagSet.Parse (fs : FlagSet) (args : List String) : FlagOutcome :=
  match flagParseRaw fs args with
  | .ok rest => .ok rest
  | .error fe =>
    match fs.errorHandling with
    | .continueOnError =>
      .errRet (match fe with | .help => errHelpMsg | .fail m => .msg m)
    | .exitOnError =>
      match fe with | .help => .exited 0 | .fail _ => .exited 2
    | .panicOnError =>
      .panicked (match fe with | .help => errHelpMsg | .fail m => .msg m)

/-- cmds.ErrorHandling: how Command.Parse behaves if parsing fails. -/
inductive ErrorHandling where
  | returnOnError
  | exitOnError
  | panicOnError
  deriving DecidableEq, Repr

/-- Result of cmds.handleError: the (possibly re-wrapped) error is
returned, or the process exits, or it panics. -/
inductive HandledOutcome where
  | ret (e : GoError)
  | exit (code : Nat)
  | panicOut (e : GoError)
  deriving DecidableEq, Repr

/-- cmds.go lines 265-285: wrap errors satisfying ErrCmd or ErrFlag
under the generic Err marker; then under ExitOnError log and exit with
3 for ErrCmd, 2 for ErrFlag, 1 otherwise; under PanicOnError panic;
otherwise return the error. -/
def handleError (e : GoError) (h : ErrorHandling) : HandledOutcome :=
  let e1 := if errorIs e .errCmd || errorIs e .errFlag then .wrap2 .errMark e else e
  match h with
  | .exitOnError =>
    if errorIs e1 .errCmd then .exit 3
    else if errorIs e1 .errFlag then .exit 2
    else .exit 1
  | .panicOnError => .panicOut e1
  | .returnOnError => .ret e1

/-- The behaviour of a RunnerFunc.  A Go runner is an arbitrary
function `func(*Command, []string) error`; the dispatcher only invokes
it and propagates the returned error, so a runner is modelled by the
value it returns on the call the dispatcher makes. -/
inductive RunnerSpec where
  | retOk
  | retErr (e : GoError)
  deriving DecidableEq, Repr

/-- cmds.Command: a command node.  `Flags` is the nilable
`*flag.FlagSet` pointer, `Runner` the nilable function field,
`Commands` the ordered sub-command list. -/
structure Command where
  Name : String
  ShortDesc : String := ""
  LongDesc : String := ""
  Flags : Option FlagSet := none
  errorHandling : ErrorHandling := .returnOnError
  Runner : Option RunnerSpec := none
  Commands : List Command := []
  deriving Repr

mutual

/-- Size measure on command trees (1 + sizes of all sub-commands),
used as a fuel bound for the dispatch loop. -/
def Command.msize : Command → Nat
  | ⟨_, _, _, _, _, _, cs⟩ => 1 + msizeList cs

/-- Sum of Command.msize over a list of commands. -/
def msizeList : List Command → Nat
  | [] => 0
  | c :: cs => Command.msize c + msizeList cs

end

/-- The loop of Go Command.Find over a sub-command list: first entry
whose Name equals the argument, nil when none matches. -/
def findIn : List Command → String → Option Command
  | [], _ => none
  | sub :: rest, n => if sub.Name == n then some sub else findIn rest n

/-- cmds.go lines 70-78: Find the sub-command with the given name. -/
def Command.Find (cmd : Command) (n : String) : Option Command :=
  findIn cmd.Commands n

/-- cmds.go lines 117-126 of parse: if the node has no FlagSet, create
one named after the node, with the root FlagSet's error-handling mode
when the root has a FlagSet and flag.ExitOnError otherwise, and store
it on the node.  The `Usage` assignment on line 125 is display-only
and not modelled.  When the node being initialised is the root itself,
Go also makes `rootCmd.Flags` non-nil through pointer aliasing, so
every later read of `rootCmd.Flags.ErrorHandling()` yields
`flag.ExitOnError`; that equals what the `none` branch computes, so
keeping the root parameter unchanged is observationally equal. -/
def ensureFlags (root cmd : Command) : Command :=
  match cmd.Flags with
  | some _ => cmd
  | none =>
    let eh : FlagErrorHandling :=
      match root.Flags with
      | some rf => rf.errorHandling
      | none => .exitOnError
    { cmd with Flags := some ⟨cmd.Name, eh, []⟩ }

/-- Read the node's FlagSet.  After ensureFlags it is always present;
the default value is never observed by the dispatcher. -/
def Command.flagsD (cmd : Command) : FlagSet :=
  cmd.Flags.getD ⟨"", .continueOnError, []⟩

/-- cmds.go lines 143-148: the missing-command error, generic when the
current node's Name equals the root's Name, naming the node
otherwise. -/
def missingCmdErr (root cmd : Command) : GoError :=
  if cmd.Name = root.Name then .msg "missing command"
  else .msg ("missing command for \"" ++ cmd.Name ++ "\"")

/-- Result of the internal dispatch loop `parse`: the resolved leaf
with its final arguments, a returned error, a process exit or panic
propagated from a FlagSet, or fuel exhaustion (proved unreachable for
fuel at least Command.msize). -/
inductive Outcome where
  | ok (leaf : Command) (rest : List String)
  | err (e : GoError)
  | exit (code : Nat)
  | panicked (e : GoError)
  | outOfFuel
  deriving Repr

/-- cmds.go lines 132-155, the part of one loop iteration of parse
from the `cmd.Flags.Parse(args)` call on: wrap a returned flag error
under ErrFlag (line 133); on success return the node when it is a
leaf (lines 138-140), fail with the missing-command error when no
arguments remain (lines 142-150), otherwise look the selector up among
the sub-commands, failing with the unknown-command error on no match
(lines 152-155) and continuing the loop on the matched child. -/
def afterFlags (root : Command) (recurse : Command → List String → Outcome)
    (cmd : Command) (ro : FlagOutcome) : Outcome :=
  match ro with
  | .errRet e => .err (.wrap2 .errFlag e)
  | .exited c => .exit c
  | .panicked e => .panicked e
  | .ok args =>
    if cmd.Commands.isEmpty then .ok cmd args
    else
      match args with
      | [] => .err (.wrap2 .errCmd (missingCmdErr root cmd))
      | tok :: _ =>
        match cmd.Find tok with
        | none => .err (.wrap2 .errCmd (.msg ("no such command \"" ++ tok ++ "\"")))
        | some child => recurse child args

/-- cmds.go lines 114-157: the loop of parse, with fuel making the
recursion manifestly total.  Each iteration ensures the node's FlagSet
exists (lines 117-126), drops the selector token when the node's Name
differs from the root's and arguments remain (lines 128-130), has the
FlagSet parse the arguments, and continues in afterFlags. -/
def parseLoop (root : Command) : Nat → Command → List String → Outcome
  | 0, _, _ => .outOfFuel
  | fuel + 1, cmd0, args0 =>
    afterFlags root (parseLoop root fuel) (ensureFlags root cmd0)
      ((ensureFlags root cmd0).flagsD.Parse
        (if (ensureFlags root cmd0).Name ≠ root.Name ∧ args0 ≠ [] then args0.tail else args0))

/-- cmds.go non-exported Command.parse: run the loop from the receiver
as both root and current node.  The fuel Command.msize is sufficient
(proved below), matching the unbounded Go loop. -/
def Command.parse (cmd : Command) (args : List String) : Outcome :=
  parseLoop cmd cmd.msize cmd args

/-- Result of exported Command.Parse, a Go `(*Command, []string,
error)` triple with nilable components, or a propagated process exit
or panic. -/
inductive ParseResult where
  | ret (leaf : Option Command) (rest : Option (List String)) (e : Option GoError)
  | exit (code : Nat)
  | panicked (e : GoError)
  deriving Repr

/-- cmds.go lines 83-91: exported Parse runs parse and, on error,
routes it through handleError under the receiver's policy and returns
nil leaf and nil arguments alongside the handled error. -/
def Command.Parse (cmd : Command) (args : List String) : ParseResult :=
  match cmd.parse args with
  | .ok leaf rest => .ret (some leaf) (some rest) none
  | .err e =>
    match handleError e cmd.errorHandling with
    | .ret e1 => .ret none none (some e1)
    | .exit c => .exit c
    | .panicOut e1 => .panicked e1
  | .exit c => .exit c
  | .panicked e => .panicked e
  | .outOfFuel => .ret none none none

/-- Result of Command.Run: the runner's returned error, or the Go
runtime fault from calling a nil function value. -/
inductive RunResult where
  | ret (e : Option GoError)
  | nilFuncPanic
  deriving Repr

/-- cmds.go lines 93-95: Run calls cmd.Runner(cmd, args) with no nil
check; in Go, calling a nil function value panics at runtime. -/
def Command.Run (cmd : Command) (_args : List String) : RunResult :=
  match cmd.Runner with
  | none => .nilFuncPanic
  | some r =>
    match r with
    | .retOk => .ret none
    | .retErr e => .ret (some e)

/-- Result of Command.ParseRun as observed by the process. -/
inductive RunOutcome where
  | ok
  | err (e : GoError)
  | exit (code : Nat)
  | panicked (e : GoError)
  deriving Repr

/-- The Go runtime error raised by dereferencing a nil pointer. -/
def nilDeref : GoError :=
  .msg "runtime error: invalid memory address or nil pointer dereference"

/-- cmds.go lines 99-112: ParseRun runs Parse, returns its error when
non-nil, otherwise fails through handleError with a nil-runner ErrCmd
when the leaf's Runner is nil, and otherwise invokes the leaf's Runner
and returns its result directly (not routed through handleError). -/
def Command.ParseRun (cmd : Command) (args : List String) : RunOutcome :=
  match cmd.Parse args with
  | .exit c => .exit c
  | .panicked e => .panicked e
  | .ret leaf? _ err? =>
    match err? with
    | some e => .err e
    | none =>
      match leaf? with
      | none => .panicked nilDeref
      | some leaf =>
        match leaf.Runner with
        | none =>
          match handleError (.wrap2 .errCmd (.msg "nil runner")) cmd.errorHandling with
          | .ret e1 => .err e1
          | .exit c => .exit c
          | .panicOut e1 => .panicked e1
        | some r =>
          match r with
          | .retOk => .ok
          | .retErr e => .err e

/-- Modelled from the spec: the dispatcher iteration in the order the
specification's algorithm lists it, with the selector drop as step 5
performed after the flag parse of steps 3-4.  Everything else (lazy
FlagSet creation, root detection by Name, error wrapping, lookup) is
kept identical to parseLoop so the two differ only in the drop
ordering. -/
def parseLoopSpec (root : Command) : Nat → Command → List String → Outcome
  | 0, _, _ => .outOfFuel
  | fuel + 1, cmd0, args0 =>
    match (ensureFlags root cmd0).flagsD.Parse args0 with
    | .errRet e => .err (.wrap2 .errFlag e)
    | .exited c => .exit c
    | .panicked e => .panicked e
    | .ok args1 =>
      afterFlags root (parseLoopSpec root fuel) (ensureFlags root cmd0)
        (.ok (if (ensureFlags root cmd0).Name ≠ root.Name ∧ args1 ≠ [] then args1.tail
          else args1))

/-- Modelled from the spec: Command.parse with the spec's step
ordering, for comparison with the implementation. -/
def specParse (cmd : Command) (args : List String) : Outcome :=
  parseLoopSpec cmd cmd.msize cmd args

/-! Helper lemmas about the embedding. -/

theorem ensureFlags_Name (root cmd : Command) : (ensureFlags root cmd).Name = cmd.Name := by
  unfold ensureFlags
  split <;> rfl

theorem ensureFlags_Commands (root cmd : Command) :
    (ensureFlags root cmd).Commands = cmd.Commands := by
  unfold ensureFlags
  split <;> rfl

theorem msize_pos (c : Command) : 1 ≤ c.msize := by
  rcases c with ⟨n, sd, ld, f, eh, r, cs⟩
  simp only [Command.msize]
  exact Nat.le_add_right 1 _

theorem msizeList_lt_msize (c : Command) : msizeList c.Commands < c.msize := by
  rcases c with ⟨n, sd, ld, f, eh, r, cs⟩
  simp only [Command.msize]
  omega

theorem msizeList_le_of_mem {c : Command} {l : List Command} (h : c ∈ l) :
    c.msize ≤ msizeList l := by
  induction l with
  | nil => simp at h
  | cons a l ih =>
    rcases List.mem_cons.mp h with rfl | h'
    · simp only [msizeList]
      exact Nat.le_add_right _ _
    · simp only [msizeList]
      exact Nat.le_trans (ih h') (Nat.le_add_left _ _)

theorem findIn_mem {l : List Command} {n : String} {c : Command}
    (h : findIn l n = some c) : c ∈ l := by
  induction l with
  | nil => simp [findIn] at h
  | cons a l ih =>
    unfold findIn at h
    split at h
    · exact (Option.some.injEq _ _ ▸ h) ▸ List.mem_cons_self a l
    · exact List.mem_cons_of_mem a (ih h)

theorem findIn_eq_find? (l : List Command) (n : String) :
    findIn l n = l.find? (fun c => c.Name == n) := by
  induction l with
  | nil => rfl
  | cons a l ih =>
    unfold findIn
    by_cases hp : (a.Name == n) = true
    · simp [List.find?, hp]
    · simp only [Bool.not_eq_true] at hp
      simp [List.find?, hp, ih]

theorem errorIs_wrap2_outer {a t : GoError} (b : GoError) (h : errorIs a t = true) :
    errorIs (.wrap2 a b) t = true := by
  simp [errorIs, h]

theorem errorIs_wrap2_inner {b t : GoError} (a : GoError) (h : errorIs b t = true) :
    errorIs (.wrap2 a b) t = true := by
  simp [errorIs, h]

theorem markerFree_not_is (e t : GoError) (hm : markerFree e = true)
    (ht : t = .errMark ∨ t = .errCmd ∨ t = .errFlag) : errorIs e t = false := by
  induction e with
  | errMark => simp [markerFree] at hm
  | errCmd => simp [markerFree] at hm
  | errFlag => simp [markerFree] at hm
  | msg s =>
    rcases ht with rfl | rfl | rfl <;> simp [errorIs]
  | wrap2 a b iha ihb =>
    simp only [markerFree, Bool.and_eq_true] at hm
    have ha := iha hm.1
    have hb := ihb hm.2
    rcases ht with rfl | rfl | rfl <;> simp [errorIs, ha, hb]

theorem FlagSet_Parse_errRet {fs : FlagSet} {args : List String} {e : GoError}
    (h : fs.Parse args = .errRet e) : ∃ s, e = .msg s := by
  unfold FlagSet.Parse at h
  rcases hr : flagParseRaw fs args with fe | rest <;> rw [hr] at h
  · rcases heh : fs.errorHandling <;> rw [heh] at h
    · rcases fe with _ | m
      · simp only [FlagOutcome.errRet.injEq, errHelpMsg] at h
        exact ⟨"flag: help requested", h.symm⟩
      · simp only [FlagOutcome.errRet.injEq] at h
        exact ⟨m, h.symm⟩
    · rcases fe with _ | m <;> exact absurd h (by simp)
    · exact absurd h (by simp)
  · exact absurd h (by simp)

theorem missingCmdErr_markerFree (root cmd : Command) :
    markerFree (missingCmdErr root cmd) = true := by
  unfold missingCmdErr
  split <;> rfl

theorem parseLoop_err_shape (fuel : Nat) :
    ∀ (root cmd : Command) (args : List String) (e : GoError),
      parseLoop root fuel cmd args = .err e →
      ∃ b, (e = .wrap2 .errFlag b ∨ e = .wrap2 .errCmd b) ∧ markerFree b = true := by
  induction fuel with
  | zero => intro root cmd args e h; simp [parseLoop] at h
  | succ n ih =>
    intro root cmd args e h
    simp only [parseLoop] at h
    generalize hfo : (ensureFlags root cmd).flagsD.Parse
        (if (ensureFlags root cmd).Name ≠ root.Name ∧ args ≠ [] then args.tail else args) = fo at h
    rcases fo with rest | e0 | c | e0
    · simp only [afterFlags] at h
      split at h
      · exact absurd h (by simp)
      · split at h
        · simp only [Outcome.err.injEq] at h
          exact ⟨missingCmdErr root (ensureFlags root cmd),
            Or.inr h.symm, missingCmdErr_markerFree _ _⟩
        · split at h
          · simp only [Outcome.err.injEq] at h
            exact ⟨_, Or.inr h.symm, rfl⟩
          · exact ih _ _ _ _ h
    · simp only [afterFlags, Outcome.err.injEq] at h
      obtain ⟨s, rfl⟩ := FlagSet_Parse_errRet hfo
      exact ⟨.msg s, Or.inl h.symm, rfl⟩
    · exact absurd h (by simp [afterFlags])
    · exact absurd h (by simp [afterFlags])

theorem parse_err_shape {cmd : Command} {args : List String} {e : GoError}
    (h : cmd.parse args = .err e) :
    ∃ b, (e = .wrap2 .errFlag b ∨ e = .wrap2 .errCmd b) ∧ markerFree b = true :=
  parseLoop_err_shape cmd.msize cmd cmd args e h

theorem handleError_ret_of_is {e : GoError}
    (h : errorIs e .errCmd = true ∨ errorIs e .errFlag = true) :
    handleError e .returnOnError = .ret (.wrap2 .errMark e) := by
  unfold handleError
  rcases h with h | h <;> simp [h]

theorem Parse_of_parse_err {cmd : Command} {args : List String} {E : GoError}
    (hp : cmd.parse args = .err E) (hpol : cmd.errorHandling = .returnOnError) :
    cmd.Parse args = .ret none none (some (.wrap2 .errMark E)) := by
  obtain ⟨b, hb, hmf⟩ := parse_err_shape hp
  have his : errorIs E .errCmd = true ∨ errorIs E .errFlag = true := by
    rcases hb with rfl | rfl
    · exact Or.inr (errorIs_wrap2_outer b (by decide))
    · exact Or.inl (errorIs_wrap2_outer b (by decide))
  simp only [Command.Parse, hp, hpol]
  rw [handleError_ret_of_is his]

theorem ParseRun_of_parse_err {cmd : Command} {args : List String} {E : GoError}
    (hp : cmd.parse args = .err E) (hpol : cmd.errorHandling = .returnOnError) :
    cmd.ParseRun args = .err (.wrap2 .errMark E) := by
  simp only [Command.ParseRun, Parse_of_parse_err hp hpol]

theorem Parse_of_parse_ok {cmd leaf : Command} {args rest : List String}
    (hp : cmd.parse args = .ok leaf rest) :
    cmd.Parse args = .ret (some leaf) (some rest) none := by
  simp only [Command.Parse, hp]

/-! Concrete command trees used in witnesses and counterexamples. -/

/-- A leaf sub-command named "sub" with a boolean flag d. -/
def T1sub : Command :=
  { Name := "sub"
    Flags := some ⟨"sub", .continueOnError, [("d", true)]⟩
    Runner := some .retOk
    Commands := [] }

/-- A root named "root" with a boolean flag c and one sub-command. -/
def T1 : Command :=
  { Name := "root"
    Flags := some ⟨"root", .continueOnError, [("c", true)]⟩
    Commands := [T1sub] }

/-- A grandchild leaf. -/
def CTg : Command := { Name := "g", Commands := [] }

/-- A non-root, non-leaf node whose Name "-x" collides with the root's
Name and whose flag set defines the boolean flag x. -/
def CTsub : Command :=
  { Name := "-x"
    Flags := some ⟨"-x", .continueOnError, [("x", true)]⟩
    Commands := [CTg] }

/-- A root named "-x" with a non-leaf child of the same Name. -/
def CT : Command :=
  { Name := "-x"
    Flags := some ⟨"-x", .continueOnError, []⟩
    Commands := [CTsub] }

/-- A leaf root under ExitOnError whose runner returns an error. -/
def B2 : Command :=
  { Name := "b"
    Flags := some ⟨"b", .continueOnError, []⟩
    errorHandling := .exitOnError
    Runner := some (.retErr (.msg "boom"))
    Commands := [] }

/-- A leaf sub-command whose runner returns a plain error. -/
def TEsub : Command :=
  { Name := "sub"
    Flags := some ⟨"sub", .continueOnError, []⟩
    Runner := some (.retErr (.msg "run error"))
    Commands := [] }

/-- A ReturnOnError root with a boolean flag a and one sub-command. -/
def TE : Command :=
  { Name := "te"
    Flags := some ⟨"te", .continueOnError, [("a", true)]⟩
    Commands := [TEsub] }

/-- A leaf with no FlagSet, for the lazy-creation properties. -/
def L6 : Command := { Name := "lazy", Commands := [] }

/-- A leaf named "s", listed first. -/
def W5a : Command :=
  { Name := "s"
    Flags := some ⟨"s", .continueOnError, []⟩
    Runner := some .retOk
    Commands := [] }

/-- A second leaf also named "s", shadowed by W5a during lookup. -/
def W5b : Command := { Name := "s", ShortDesc := "second", Commands := [] }

/-- A root with two children of equal Name. -/
def W5 : Command :=
  { Name := "w"
    Flags := some ⟨"w", .continueOnError, []⟩
    Commands := [W5a, W5b] }

/-- A leaf root with a FlagSet and nil Runner. -/
def N9 : Command :=
  { Name := "n", Flags := some ⟨"n", .continueOnError, []⟩, Commands := [] }

/-! The claims. -/

/-- C7: for every finite command tree and argument list, the dispatch
loop of parse terminates: with fuel at least the tree measure of the
current node it never runs out, because each iteration either returns
the current node as leaf, fails, or strictly descends to a child. -/
theorem parseLoop_terminates (root cmd : Command) (args : List String) (fuel : Nat)
    (h : cmd.msize ≤ fuel) : parseLoop root fuel cmd args ≠ .outOfFuel := by
  induction fuel generalizing cmd args with
  | zero =>
    intro _
    have := msize_pos cmd
    omega
  | succ n ih =>
    simp only [parseLoop]
    rcases hfo : (ensureFlags root cmd).flagsD.Parse
        (if (ensureFlags root cmd).Name ≠ root.Name ∧ args ≠ [] then args.tail else args) with
      rest | e0 | c | e0
    · simp only [afterFlags]
      split
      · simp
      · split
        · simp
        · split
          · simp
          · rename_i child hf
            apply ih
            have hmem : child ∈ cmd.Commands := by
              unfold Command.Find at hf
              rw [ensureFlags_Commands] at hf
              exact findIn_mem hf
            have h1 : child.msize ≤ msizeList cmd.Commands := msizeList_le_of_mem hmem
            have h2 : msizeList cmd.Commands < cmd.msize := msizeList_lt_msize cmd
            omega
    · simp [afterFlags]
    · simp [afterFlags]
    · simp [afterFlags]

/-- C7 witness: the termination bound instantiated on a concrete tree
and argument list. -/
theorem parseLoop_terminates_witness :
    T1.msize ≤ 50 ∧ parseLoop T1 50 T1 ["-c", "sub", "-d"] ≠ .outOfFuel :=
  ⟨by decide, parseLoop_terminates T1 T1 ["-c", "sub", "-d"] 50 (by decide)⟩

/-- C1 counterexample: the implementation does not drop the selector
token after the node's flag set has parsed (the spec's step ordering,
specParse); on the tree T1 with input "-c sub -d a b" the
implementation parses "-d" as sub's flag and returns final arguments
"a b", while the spec ordering would stop flag parsing at the selector
and return "-d a b". -/
theorem parse_drop_order_differs_from_spec_order :
    ¬ (∀ (cmd : Command) (args : List String), cmd.parse args = specParse cmd args) := by
  intro hall
  have h1 := hall T1 ["-c", "sub", "-d", "a", "b"]
  have e1 : T1.parse ["-c", "sub", "-d", "a", "b"] = .ok T1sub ["a", "b"] := by rfl
  have e2 : specParse T1 ["-c", "sub", "-d", "a", "b"] = .ok T1sub ["-d", "a", "b"] := by rfl
  rw [e1, e2] at h1
  injection h1 with _ h3
  exact absurd h3 (by decide)

/-- C1 (amended): the selector token of a node whose Name differs from
the root's is dropped before that node's flag set parses: the
iteration on arguments (t :: rest) continues with the flag set applied
to rest. -/
theorem parse_drops_selector_before_flag_parse (root cmd0 : Command) (fuel : Nat)
    (t : String) (rest : List String) (h : cmd0.Name ≠ root.Name) :
    parseLoop root (fuel + 1) cmd0 (t :: rest) =
      afterFlags root (parseLoop root fuel) (ensureFlags root cmd0)
        ((ensureFlags root cmd0).flagsD.Parse rest) := by
  simp only [parseLoop, ensureFlags_Name]
  rw [if_pos ⟨h, by simp⟩, List.tail_cons]

/-- C1 witness: the amended drop-before-parse characterisation at the
concrete node T1sub under root T1. -/
theorem parse_drops_selector_before_flag_parse_witness :
    T1sub.Name ≠ T1.Name ∧
    parseLoop T1 2 T1sub ["sub", "-d"] =
      afterFlags T1 (parseLoop T1 1) (ensureFlags T1 T1sub)
        ((ensureFlags T1 T1sub).flagsD.Parse ["-d"]) :=
  ⟨by decide, parse_drops_selector_before_flag_parse T1 T1sub 1 "sub" ["-d"] (by decide)⟩

/-- C8: parse distinguishes the root by Name comparison, not node
identity: for every node whose Name equals the root's Name, the
selector token is not dropped before its flag set parses, and its
missing-command error is the root's generic message. -/
theorem root_detection_by_name (root cmd0 : Command) (fuel : Nat)
    (t : String) (rest : List String) (h : cmd0.Name = root.Name) :
    parseLoop root (fuel + 1) cmd0 (t :: rest) =
      afterFlags root (parseLoop root fuel) (ensureFlags root cmd0)
        ((ensureFlags root cmd0).flagsD.Parse (t :: rest)) ∧
    missingCmdErr root cmd0 = .msg "missing command" := by
  constructor
  · simp only [parseLoop, ensureFlags_Name]
    rw [if_neg (by simp [h])]
  · unfold missingCmdErr
    rw [if_pos h]

/-- C8 witness: the descendant CTsub of CT shares the root's Name
"-x"; its selector is not dropped and its missing-command message is
the generic one, as shown end to end by CT.parse. -/
theorem root_detection_by_name_witness :
    CTsub.Name = CT.Name ∧
    (parseLoop CT 2 CTsub ["-x"] =
      afterFlags CT (parseLoop CT 1) (ensureFlags CT CTsub)
        ((ensureFlags CT CTsub).flagsD.Parse ["-x"]) ∧
      missingCmdErr CT CTsub = .msg "missing command") :=
  ⟨rfl, root_detection_by_name CT CTsub 1 "-x" [] rfl⟩

/-- C2: under ExitOnError an error returned by the leaf's runner does
not terminate the process with exit code 1 as the claim and the doc
comment on ExitOnError state: ParseRun returns the runner's error to
the caller untouched, because the value of leafCmd.Runner is returned
directly and never routed through handleError. -/
theorem exitOnError_runner_error_is_returned_not_exited :
    B2.errorHandling = .exitOnError ∧
    B2.ParseRun [] = .err (.msg "boom") ∧
    B2.ParseRun [] ≠ .exit 1 := by
  refine ⟨rfl, rfl, ?_⟩
  intro hcon
  rw [show B2.ParseRun [] = .err (.msg "boom") from rfl] at hcon
  exact RunOutcome.noConfusion hcon

/-- C4 counterexample: on the tree CT, whose non-root non-leaf child
CTsub shares the root's Name "-x", the input "-- -x" makes resolve
fail at CTsub with the generic "missing command" message instead of a
message naming CTsub, so a non-root node does not always produce a
message naming itself. -/
theorem missing_command_generic_at_nonroot :
    CT.parse ["--", "-x"] = .err (.wrap2 .errCmd (.msg "missing command")) ∧
    CTsub ∈ CT.Commands ∧
    CTsub.Commands ≠ [] ∧
    missingCmdErr CT CTsub = .msg "missing command" ∧
    GoError.msg "missing command" ≠
      .msg ("missing command for \"" ++ CTsub.Name ++ "\"") := by
  refine ⟨rfl, ?_, ?_, rfl, by decide⟩
  · show CTsub ∈ [CTsub]
    exact List.mem_singleton.mpr rfl
  · show [CTg] ≠ []
    exact List.cons_ne_nil _ _

/-- C4 (amended): when the remaining argument list after flag parsing
is empty at a non-leaf node, resolve fails with a missing-command
ErrCmd error whose message is the generic "missing command" exactly
when the node's Name equals the root's Name, and a message naming the
node when its Name differs from the root's. -/
theorem missing_command_message_by_name (root cmd : Command)
    (rec : Command → List String → Outcome)
    (hne : cmd.Commands.isEmpty = false) :
    afterFlags root rec cmd (.ok []) = .err (.wrap2 .errCmd (missingCmdErr root cmd)) ∧
    (cmd.Name = root.Name → missingCmdErr root cmd = .msg "missing command") ∧
    (cmd.Name ≠ root.Name →
      missingCmdErr root cmd = .msg ("missing command for \"" ++ cmd.Name ++ "\"")) := by
  refine ⟨?_, ?_, ?_⟩
  · simp [afterFlags, hne]
  · intro h
    unfold missingCmdErr
    rw [if_pos h]
  · intro h
    unfold missingCmdErr
    rw [if_neg h]

/-- C4 witness: the amended missing-command message rule at the
concrete nodes CT (named like the root of T1? no: named "-x", distinct
from root T1's "root") and CTsub under root CT. -/
theorem missing_command_message_by_name_witness :
    (afterFlags T1 (parseLoop T1 0) CT (.ok []) =
      .err (.wrap2 .errCmd (missingCmdErr T1 CT)) ∧
      missingCmdErr T1 CT = .msg ("missing command for \"-x\"")) ∧
    (afterFlags CT (parseLoop CT 0) CTsub (.ok []) =
      .err (.wrap2 .errCmd (missingCmdErr CT CTsub)) ∧
      missingCmdErr CT CTsub = .msg "missing command") := by
  constructor
  · obtain ⟨h1, _, h3⟩ := missing_command_message_by_name T1 CT (parseLoop T1 0) rfl
    exact ⟨h1, h3 (by decide)⟩
  · obtain ⟨h1, h2, _⟩ := missing_command_message_by_name CT CTsub (parseLoop CT 0) rfl
    exact ⟨h1, h2 rfl⟩

/-- C9: Command.Run invokes the node's Runner with no nil check, so a
nil Runner faults with a nil-function-call panic; only ParseRun checks
for a nil Runner, failing there with the nil-runner ErrCmd error. -/
theorem run_invokes_runner_unconditionally (cmd : Command) (args : List String)
    (h : cmd.Runner = none) :
    cmd.Run args = .nilFuncPanic ∧
    (∀ leaf rest, cmd.parse args = .ok leaf rest → leaf.Runner = none →
      cmd.errorHandling = .returnOnError →
      cmd.ParseRun args = .err (.wrap2 .errMark (.wrap2 .errCmd (.msg "nil runner")))) := by
  constructor
  · simp [Command.Run, h]
  · intro leaf rest hp hl hpol
    simp only [Command.ParseRun, Parse_of_parse_ok hp, hl, hpol]
    rw [handleError_ret_of_is (Or.inl (errorIs_wrap2_outer _ (by decide)))]

/-- C9 witness: the leaf root N9 has a nil Runner; Run panics on it
while ParseRun returns the nil-runner command error. -/
theorem run_invokes_runner_unconditionally_witness :
    N9.Run [] = .nilFuncPanic ∧
    N9.ParseRun [] = .err (.wrap2 .errMark (.wrap2 .errCmd (.msg "nil runner"))) := by
  obtain ⟨h1, h2⟩ := run_invokes_runner_unconditionally N9 [] rfl
  exact ⟨h1, h2 N9 [] rfl rfl rfl⟩

/-- C10: whenever exported Parse returns a non-nil error under
ReturnOnError, the returned leaf command and argument slice are both
nil. -/
theorem parse_error_yields_nil_results (cmd : Command) (args : List String)
    (l : Option Command) (a : Option (List String)) (e : GoError)
    (hpol : cmd.errorHandling = .returnOnError)
    (h : cmd.Parse args = .ret l a (some e)) :
    l = none ∧ a = none := by
  rcases hp : cmd.parse args with ⟨leaf, rest⟩ | e0 | c | e0 | _ <;>
    simp only [Command.Parse, hp] at h
  · simp at h
  · rw [hpol] at h
    rcases hh : handleError e0 ErrorHandling.returnOnError with e1 | c | e1 <;> rw [hh] at h
    · simp only [ParseResult.ret.injEq] at h
      exact ⟨h.1.symm, h.2.1.symm⟩
    · simp at h
    · simp at h
  · simp at h
  · simp at h
  · simp at h

/-- C10 witness: Parse on TE with an unknown command returns nil leaf
and nil arguments alongside the wrapped error. -/
theorem parse_error_yields_nil_results_witness :
    TE.Parse ["nope"] = .ret none none
      (some (.wrap2 .errMark (.wrap2 .errCmd (.msg "no such command \"nope\"")))) ∧
    ((none : Option Command) = none ∧ (none : Option (List String)) = none) :=
  ⟨rfl, parse_error_yields_nil_results TE ["nope"] none none
    (.wrap2 .errMark (.wrap2 .errCmd (.msg "no such command \"nope\""))) rfl rfl⟩

theorem errorIs_flag_wrapped {b : GoError} (hb : markerFree b = true) :
    errorIs (.wrap2 .errMark (.wrap2 .errFlag b)) .errMark = true ∧
    errorIs (.wrap2 .errMark (.wrap2 .errFlag b)) .errFlag = true ∧
    errorIs (.wrap2 .errMark (.wrap2 .errFlag b)) .errCmd = false := by
  have hc := markerFree_not_is b .errCmd hb (Or.inr (Or.inl rfl))
  refine ⟨errorIs_wrap2_outer _ (by decide),
    errorIs_wrap2_inner _ (errorIs_wrap2_outer _ (by decide)), ?_⟩
  simp [errorIs, beq_iff_eq, hc]

theorem errorIs_cmd_wrapped {b : GoError} (hb : markerFree b = true) :
    errorIs (.wrap2 .errMark (.wrap2 .errCmd b)) .errMark = true ∧
    errorIs (.wrap2 .errMark (.wrap2 .errCmd b)) .errCmd = true ∧
    errorIs (.wrap2 .errMark (.wrap2 .errCmd b)) .errFlag = false := by
  have hf := markerFree_not_is b .errFlag hb (Or.inr (Or.inr rfl))
  refine ⟨errorIs_wrap2_outer _ (by decide),
    errorIs_wrap2_inner _ (errorIs_wrap2_outer _ (by decide)), ?_⟩
  simp [errorIs, beq_iff_eq, hf]

/-- C3: under ReturnOnError, an error of ParseRun that originated as a
flag-parse failure satisfies errors.Is for Err and ErrFlag but not
ErrCmd; one that originated as a command-resolution failure (including
the nil-runner check) satisfies Err and ErrCmd but not ErrFlag; an
error returned by the leaf's runner is returned unwrapped, and when it
does not itself contain the package sentinels it satisfies none of
them. -/
theorem parseRun_error_classification (cmd : Command) (args : List String)
    (hpol : cmd.errorHandling = .returnOnError) :
    (∀ b, cmd.parse args = .err (.wrap2 .errFlag b) →
      cmd.ParseRun args = .err (.wrap2 .errMark (.wrap2 .errFlag b)) ∧
      errorIs (.wrap2 .errMark (.wrap2 .errFlag b)) .errMark = true ∧
      errorIs (.wrap2 .errMark (.wrap2 .errFlag b)) .errFlag = true ∧
      errorIs (.wrap2 .errMark (.wrap2 .errFlag b)) .errCmd = false) ∧
    (∀ b, cmd.parse args = .err (.wrap2 .errCmd b) →
      cmd.ParseRun args = .err (.wrap2 .errMark (.wrap2 .errCmd b)) ∧
      errorIs (.wrap2 .errMark (.wrap2 .errCmd b)) .errMark = true ∧
      errorIs (.wrap2 .errMark (.wrap2 .errCmd b)) .errCmd = true ∧
      errorIs (.wrap2 .errMark (.wrap2 .errCmd b)) .errFlag = false) ∧
    (∀ leaf rest, cmd.parse args = .ok leaf rest → leaf.Runner = none →
      cmd.ParseRun args = .err (.wrap2 .errMark (.wrap2 .errCmd (.msg "nil runner"))) ∧
      errorIs (.wrap2 .errMark (.wrap2 .errCmd (.msg "nil runner"))) .errMark = true ∧
      errorIs (.wrap2 .errMark (.wrap2 .errCmd (.msg "nil runner"))) .errCmd = true ∧
      errorIs (.wrap2 .errMark (.wrap2 .errCmd (.msg "nil runner"))) .errFlag = false) ∧
    (∀ leaf rest e, cmd.parse args = .ok leaf rest → leaf.Runner = some (.retErr e) →
      cmd.ParseRun args = .err e ∧
      (markerFree e = true →
        errorIs e .errMark = false ∧ errorIs e .errCmd = false ∧
        errorIs e .errFlag = false)) := by
  refine ⟨?_, ?_, ?_, ?_⟩
  · intro b hp
    obtain ⟨b', hb', hmf⟩ := parse_err_shape hp
    have hbb : markerFree b = true := by
      rcases hb' with hb' | hb'
      · simp only [GoError.wrap2.injEq] at hb'
        exact hb'.2 ▸ hmf
      · simp at hb'
    exact ⟨ParseRun_of_parse_err hp hpol, errorIs_flag_wrapped hbb⟩
  · intro b hp
    obtain ⟨b', hb', hmf⟩ := parse_err_shape hp
    have hbb : markerFree b = true := by
      rcases hb' with hb' | hb'
      · simp at hb'
      · simp only [GoError.wrap2.injEq] at hb'
        exact hb'.2 ▸ hmf
    exact ⟨ParseRun_of_parse_err hp hpol, errorIs_cmd_wrapped hbb⟩
  · intro leaf rest hp hl
    refine ⟨?_, errorIs_cmd_wrapped rfl⟩
    simp only [Command.ParseRun, Parse_of_parse_ok hp, hl, hpol]
    rw [handleError_ret_of_is (Or.inl (errorIs_wrap2_outer _ (by decide)))]
  · intro leaf rest e hp hr
    refine ⟨?_, ?_⟩
    · simp only [Command.ParseRun, Parse_of_parse_ok hp, hr]
    · intro hmf
      exact ⟨markerFree_not_is e _ hmf (Or.inl rfl),
        markerFree_not_is e _ hmf (Or.inr (Or.inl rfl)),
        markerFree_not_is e _ hmf (Or.inr (Or.inr rfl))⟩

/-- C3 witness: on the tree TE, an undefined flag -z produces an error
satisfying Err and ErrFlag but not ErrCmd, and the runner error of
"te sub" is returned untouched, satisfying no sentinel. -/
theorem parseRun_error_classification_witness :
    TE.ParseRun ["-z"] =
      .err (.wrap2 .errMark (.wrap2 .errFlag (.msg "flag provided but not defined: -z"))) ∧
    errorIs (.wrap2 .errMark (.wrap2 .errFlag (.msg "flag provided but not defined: -z")))
      .errCmd = false ∧
    TE.ParseRun ["sub"] = .err (.msg "run error") ∧
    errorIs (.msg "run error") .errMark = false := by
  obtain ⟨h1, -, -, h4⟩ := parseRun_error_classification TE ["-z"] rfl
  obtain ⟨-, -, -, h4b⟩ := parseRun_error_classification TE ["sub"] rfl
  obtain ⟨ha, -, -, hb⟩ := h1 (.msg "flag provided but not defined: -z") rfl
  obtain ⟨hc, hd⟩ := h4b TEsub [] (.msg "run error") rfl rfl
  exact ⟨ha, hb, hc, (hd rfl).1⟩

/-- C5: child lookup is first-match by exact Name over the ordered
child sequence; with no match at a non-leaf node, resolve fails with
the unknown-command error naming the offending token, and any parse
error makes ParseRun return the handled error, invoking no handler; a
match continues the loop on the matched child. -/
theorem child_lookup_exact_first_match (root : Command)
    (rec : Command → List String → Outcome) (cmd : Command) (tok : String)
    (rest : List String) (hne : cmd.Commands.isEmpty = false) :
    cmd.Find tok = cmd.Commands.find? (fun c => c.Name == tok) ∧
    (cmd.Find tok = none →
      afterFlags root rec cmd (.ok (tok :: rest)) =
        .err (.wrap2 .errCmd (.msg ("no such command \"" ++ tok ++ "\"")))) ∧
    (∀ child, cmd.Find tok = some child →
      afterFlags root rec cmd (.ok (tok :: rest)) = rec child (tok :: rest)) ∧
    (∀ args2 E, cmd.parse args2 = .err E → cmd.errorHandling = .returnOnError →
      cmd.ParseRun args2 = .err (.wrap2 .errMark E)) := by
  refine ⟨?_, ?_, ?_, ?_⟩
  · unfold Command.Find
    exact findIn_eq_find? _ _
  · intro hf
    simp [afterFlags, hne, hf]
  · intro child hf
    simp [afterFlags, hne, hf]
  · intro args2 E hp hpol2
    exact ParseRun_of_parse_err hp hpol2

/-- C5 witness: on W5, whose two children share the Name "s", lookup
returns the first child W5a; the unknown token "zzz" produces the
unknown-command error; and ParseRun on "zzz" returns the handled
error. -/
theorem child_lookup_exact_first_match_witness :
    (W5.Find "s" = W5.Commands.find? (fun c => c.Name == "s") ∧ W5.Find "s" = some W5a) ∧
    afterFlags W5 (parseLoop W5 0) W5 (.ok ["zzz"]) =
      .err (.wrap2 .errCmd (.msg "no such command \"zzz\"")) ∧
    afterFlags W5 (parseLoop W5 0) W5 (.ok ["s"]) = parseLoop W5 0 W5a ["s"] ∧
    W5.ParseRun ["zzz"] =
      .err (.wrap2 .errMark (.wrap2 .errCmd (.msg "no such command \"zzz\""))) := by
  refine ⟨⟨(child_lookup_exact_first_match W5 (parseLoop W5 0) W5 "s" [] rfl).1, rfl⟩,
    (child_lookup_exact_first_match W5 (parseLoop W5 0) W5 "zzz" [] rfl).2.1 rfl,
    (child_lookup_exact_first_match W5 (parseLoop W5 0) W5 "s" [] rfl).2.2.1 W5a rfl,
    (child_lookup_exact_first_match W5 (parseLoop W5 0) W5 "zzz" [] rfl).2.2.2 ["zzz"]
      (.wrap2 .errCmd (.msg "no such command \"zzz\"")) rfl rfl⟩

/-- C6: when a visited node has no FlagSet, the dispatcher creates one
named after the node, carrying the root FlagSet's error-handling mode
when the root has a FlagSet and the terminate-on-error mode otherwise,
and stores it on the node; the leaf returned by parse carries the
created set. -/
theorem lazy_flagset_creation (root cmd : Command) (h : cmd.Flags = none) :
    (ensureFlags root cmd).Flags = some ⟨cmd.Name,
      (match root.Flags with | some rf => rf.errorHandling | none => .exitOnError), []⟩ ∧
    (∀ rf, root.Flags = some rf →
      (ensureFlags root cmd).flagsD.errorHandling = rf.errorHandling) ∧
    (root.Flags = none → (ensureFlags root cmd).flagsD.errorHandling = .exitOnError) ∧
    (ensureFlags root cmd).flagsD.name = cmd.Name ∧
    (cmd.Commands.isEmpty = true →
      cmd.parse [] = .ok { cmd with Flags := some ⟨cmd.Name, .exitOnError, []⟩ } []) := by
  refine ⟨?_, ?_, ?_, ?_, ?_⟩
  · simp [ensureFlags, h]
  · intro rf hrf
    simp [ensureFlags, h, hrf, Command.flagsD]
  · intro hr
    simp [ensureFlags, h, hr, Command.flagsD]
  · simp [ensureFlags, h, Command.flagsD]
  · intro hleaf
    unfold Command.parse
    obtain ⟨n, hn⟩ : ∃ n, cmd.msize = n + 1 :=
      ⟨cmd.msize - 1, by have := msize_pos cmd; omega⟩
    rw [hn]
    simp only [parseLoop]
    have he : ensureFlags cmd cmd = { cmd with Flags := some ⟨cmd.Name, .exitOnError, []⟩ } := by
      simp [ensureFlags, h]
    rw [he]
    simp [afterFlags, FlagSet.Parse, flagParseRaw, Command.flagsD, hleaf]

/-- C6 witness: the flagless leaf L6 gets a FlagSet named "lazy" with
the root's mode under root T1 and terminate-on-error under itself, and
parse returns L6 with the created set stored. -/
theorem lazy_flagset_creation_witness :
    (ensureFlags T1 L6).flagsD.errorHandling = .continueOnError ∧
    (ensureFlags L6 L6).flagsD.errorHandling = .exitOnError ∧
    (ensureFlags T1 L6).flagsD.name = "lazy" ∧
    L6.parse [] = .ok { L6 with Flags := some ⟨"lazy", .exitOnError, []⟩ } [] := by
  obtain ⟨-, h2, -, h4, -⟩ := lazy_flagset_creation T1 L6 rfl
  obtain ⟨-, -, h3, -, h5⟩ := lazy_flagset_creation L6 L6 rfl
  exact ⟨h2 ⟨"root", .continueOnError, [("c", true)]⟩ rfl, h3 rfl, h4, h5 rfl⟩
